import Mathlib

/-!
Verification of the TikTok account-directory aggregation service
(`tiktok_data_manager.py`, `file_watcher.py`).

The Python sources are shallowly embedded:
* a data-file's contents are `Option (List String)` — `none` models a read
  that fails (missing file, permission, a directory opened as a file), and
  `some lines` the list of text lines returned by `readlines()`;
* the on-disk directory tree passed to the aggregator is an inductive
  `Entry` tree (files with contents, directories with children);
* the manager's `data_path` is `Option (Option (List Entry))`: `none` when
  never set, `some none` when set but the path does not exist, and
  `some (some es)` when it exists with top-level entries `es`;
* wall-clock reads (`datetime.now()`) are passed in as string parameters;
* fallible operations return `Except`/`Option`/`Bool` exactly where the
  Python code raises or swallows exceptions.
-/

/-! ## Account file parsing (`TikTokDataManager.read_account_file`) -/

/-- Model of Python `str.strip()`: drop leading and trailing whitespace. -/
def stripLine (s : String) : String :=
  String.mk (((s.data.dropWhile Char.isWhitespace).reverse.dropWhile Char.isWhitespace).reverse)

/-- Model of Python `str.startswith(\x27#\x27)`. -/
def startsWithHash (s : String) : Bool :=
  match s.data with
  | c :: _ => c = '#'
  | [] => false

/-- The filter applied to each line in `read_account_file`
(`line.strip() and not line.strip().startswith(\x27#\x27)`). -/
def isValidLine (line : String) : Bool :=
  stripLine line ≠ "" && !startsWithHash (stripLine line)

/-- Embedding of `TikTokDataManager.read_account_file` (tiktok_data_manager.py lines 144-155):
strip-filter the lines and return how many remain; any I/O failure
(modelled by `none`) is caught and yields 0. -/
def read_account_file (content : Option (List String)) : Nat :=
  match content with
  | none => 0
  | some lines => ((lines.filter isValidLine).map stripLine).length

/-! ## Data model (the `@dataclass` definitions) -/

/-- The `CountryData` dataclass. `brackets` is the insertion-ordered
`bracket -> count` dict, kept as an association list. -/
structure CountryData where
  code : String
  name_zh : String
  region : String
  brackets : List (String × Nat)
  total_accounts : Nat
  centroid : Int × Int := (0, 0)
deriving DecidableEq

/-- The `RegionData` dataclass. `countries` is the
`country_code -> (bracket -> count)` dict. -/
structure RegionData where
  name : String
  countries : List (String × List (String × Nat))
  total_accounts : Nat
  total_countries : Nat
deriving DecidableEq

/-- The `totals` dict of `AggregatedData` (keys `accounts`, `countries`, `regions`). -/
structure Totals where
  accounts : Nat
  countries : Nat
  regions : Nat
deriving DecidableEq

/-- The `metadata` dict of `AggregatedData` (keys `scan_time`, `data_hash`). -/
structure MetadataInfo where
  scan_time : String
  data_hash : String
deriving DecidableEq

/-- The `AggregatedData` dataclass. -/
structure AggregatedData where
  generated_at : String
  data_source : String
  brackets : List String
  regions : List String
  countries : List CountryData
  totals : Totals
  metadata : MetadataInfo
deriving DecidableEq

/-! ## The directory tree seen by the aggregator -/

/-- A filesystem entry below the data root: a file with its readable
contents (`none` = the read would fail), or a directory with children. -/
inductive Entry where
  | file (name : String) (content : Option (List String))
  | dir (name : String) (entries : List Entry)

/-- Name of an entry. -/
def Entry.entryName : Entry → String
  | .file n _ => n
  | .dir n _ => n

/-- Path lookup inside a directory listing (models `(country_dir / name).exists()`
followed by opening that path). -/
def findEntry (es : List Entry) (n : String) : Option Entry :=
  es.find? (fun e => e.entryName == n)

/-- Opening an entry with `read_account_file`: a directory opened as a file
raises `IsADirectoryError`, which the handler turns into 0. -/
def readEntry : Entry → Nat
  | .file _ content => read_account_file content
  | .dir _ _ => 0

/-! ## Static tables (`STANDARD_BRACKETS`, `COUNTRY_NAMES`) -/

/-- The class constant `TikTokDataManager.STANDARD_BRACKETS`. -/
def STANDARD_BRACKETS : List String :=
  ["0-500", "500-1000", "1000-2000", "2000-3000", "3000-4000",
   "4000-5000", "5000-6000", "6000-7000", "7000-8000", "8000-9000", "10000+"]

/-- The class constant `TikTokDataManager.COUNTRY_NAMES`. -/
def COUNTRY_NAMES : List (String × String) :=
  [("US", "美国"), ("CN", "中国"), ("JP", "日本"), ("GB", "英国"), ("FR", "法国"),
   ("DE", "德国"), ("KR", "韩国"), ("IN", "印度"), ("BR", "巴西"), ("RU", "俄罗斯"),
   ("CA", "加拿大"), ("AU", "澳大利亚"), ("IT", "意大利"), ("ES", "西班牙"),
   ("MX", "墨西哥"), ("TR", "土耳其"), ("NL", "荷兰"), ("TH", "泰国"),
   ("SG", "新加坡"), ("MY", "马来西亚"), ("PH", "菲律宾"), ("VN", "越南"),
   ("ID", "印度尼西亚"), ("PK", "巴基斯坦"), ("BD", "孟加拉国"), ("IQ", "伊拉克"),
   ("IR", "伊朗"), ("SA", "沙特阿拉伯"), ("AE", "阿联酋"), ("EG", "埃及"),
   ("MA", "摩洛哥"), ("DZ", "阿尔及利亚"), ("TN", "突尼斯"), ("LY", "利比亚"),
   ("SD", "苏丹"), ("ET", "埃塞俄比亚"), ("KE", "肯尼亚"), ("UG", "乌干达"),
   ("TZ", "坦桑尼亚"), ("ZA", "南非"), ("NG", "尼日利亚"), ("GH", "加纳"),
   ("CI", "科特迪瓦"), ("SN", "塞内加尔"), ("ML", "马里"), ("BF", "布基纳法索"),
   ("NE", "尼日尔"), ("TD", "乍得"), ("CM", "喀麦隆"), ("CF", "中非共和国"),
   ("CG", "刚果共和国"), ("CD", "刚果民主共和国"), ("AO", "安哥拉"), ("ZM", "赞比亚"),
   ("ZW", "津巴布韦"), ("BW", "博茨瓦纳"), ("NA", "纳米比亚"), ("MZ", "莫桑比克"),
   ("MG", "马达加斯加"), ("MU", "毛里求斯"), ("SC", "塞舌尔"), ("KM", "科摩罗"),
   ("DJ", "吉布提"), ("SO", "索马里"), ("ER", "厄立特里亚"), ("SS", "南苏丹"),
   ("unknown", "未知地区")]

/-- Embedding of `self.COUNTRY_NAMES.get(country_code, country_code)`. -/
def lookupCountryName (code : String) : String :=
  match COUNTRY_NAMES.find? (fun p => p.1 == code) with
  | some p => p.2
  | none => code

/-! ## Directory aggregation (`TikTokDataManager.parse_data_directory`) -/

/-- The per-country bracket loop (lines 186-193): for each label in the
bracket enumeration, probe for `<label>.txt`; on a positive count, record
it and add it to the running `country_total`. Returns
(`country_brackets`, `country_total`). -/
def parseBrackets (es : List Entry) : List String → List (String × Nat) × Nat
  | [] => ([], 0)
  | b :: bs =>
    match findEntry es (b ++ ".txt") with
    | some e =>
      if 0 < readEntry e then
        ((b, readEntry e) :: (parseBrackets es bs).1, readEntry e + (parseBrackets es bs).2)
      else parseBrackets es bs
    | none => parseBrackets es bs

/-- Per-region accumulator: the countries materialized while walking one
region directory, the `region_countries` dict, and `region_total`. -/
structure RegionAcc where
  countries_list : List CountryData
  region_countries : List (String × List (String × Nat))
  region_total : Nat
deriving DecidableEq

/-- The `CountryData(...)` construction at lines 197-203. -/
def mkCountryData (code regionName : String) (brs : List (String × Nat)) (tot : Nat) :
    CountryData :=
  { code := code, name_zh := lookupCountryName code, region := regionName,
    brackets := brs, total_accounts := tot, centroid := (0, 0) }

/-- The country loop of one region (lines 178-208): non-directories are
skipped; a country is materialized only when `country_total > 0`. -/
def parseCountryDirs (regionName : String) : List Entry → RegionAcc
  | [] => ⟨[], [], 0⟩
  | .file _ _ :: rest => parseCountryDirs regionName rest
  | .dir code ces :: rest =>
    if 0 < (parseBrackets ces STANDARD_BRACKETS).2 then
      ⟨mkCountryData code regionName (parseBrackets ces STANDARD_BRACKETS).1
          (parseBrackets ces STANDARD_BRACKETS).2 :: (parseCountryDirs regionName rest).countries_list,
       (code, (parseBrackets ces STANDARD_BRACKETS).1) ::
          (parseCountryDirs regionName rest).region_countries,
       (parseBrackets ces STANDARD_BRACKETS).2 + (parseCountryDirs regionName rest).region_total⟩
    else parseCountryDirs regionName rest

/-- Whole-traversal accumulator: `regions_data`, `countries_list`,
`total_accounts`. -/
structure ParseAcc where
  regions_data : List (String × RegionData)
  countries_list : List CountryData
  total_accounts : Nat
deriving DecidableEq

/-- The region loop (lines 168-216): non-directories are skipped; a region
enters `regions_data` only when `region_countries` is non-empty. -/
def parseRegions : List Entry → ParseAcc
  | [] => ⟨[], [], 0⟩
  | .file _ _ :: rest => parseRegions rest
  | .dir rname res :: rest =>
    ⟨(if (parseCountryDirs rname res).region_countries = [] then
        (parseRegions rest).regions_data
      else
        (rname, ⟨rname, (parseCountryDirs rname res).region_countries,
                 (parseCountryDirs rname res).region_total,
                 (parseCountryDirs rname res).region_countries.length⟩) ::
          (parseRegions rest).regions_data),
     (parseCountryDirs rname res).countries_list ++ (parseRegions rest).countries_list,
     (parseCountryDirs rname res).region_total + (parseRegions rest).total_accounts⟩

/-- Descending insertion preserving the order of equal keys: the semantics
of Python's stable `list.sort(key=lambda x: x.total_accounts, reverse=True)`
when elements are added in traversal order. -/
def insertDesc (c : CountryData) : List CountryData → List CountryData
  | [] => [c]
  | d :: ds =>
    if d.total_accounts ≤ c.total_accounts then c :: d :: ds
    else d :: insertDesc c ds

/-- Stable sort, descending by `total_accounts` (line 219). -/
def sortCountries : List CountryData → List CountryData
  | [] => []
  | c :: cs => insertDesc c (sortCountries cs)

/-- Sum of the counts stored in a bracket mapping. -/
def bracketSum (brs : List (String × Nat)) : Nat :=
  (brs.map Prod.snd).sum

/-! ## Content fingerprint (`TikTokDataManager._calculate_data_hash`) -/

/-- Codepoint-lexicographic order on character lists: how Python compares
strings when `json.dumps(..., sort_keys=True)` sorts dict keys. -/
def charListLt : List Char → List Char → Bool
  | [], [] => false
  | [], _ :: _ => true
  | _ :: _, [] => false
  | a :: as, b :: bs =>
    if a.toNat < b.toNat then true
    else if b.toNat < a.toNat then false
    else charListLt as bs

/-- Insert one pair into a key-sorted pair list. -/
def insertByKey (p : String × Nat) : List (String × Nat) → List (String × Nat)
  | [] => [p]
  | q :: qs => if charListLt p.1.data q.1.data then p :: q :: qs else q :: insertByKey p qs

/-- Sort an association list by key, as `sort_keys=True` renders a dict. -/
def sortPairsByKey : List (String × Nat) → List (String × Nat)
  | [] => []
  | p :: ps => insertByKey p (sortPairsByKey ps)

/-- Canonical (key-sorted) rendering of a bracket dict. -/
def serializeBrackets (brs : List (String × Nat)) : String :=
  "\x7b" ++ String.intercalate ", "
    ((sortPairsByKey brs).map (fun p => "\"" ++ p.1 ++ "\": " ++ toString p.2)) ++ "\x7d"

/-- Canonical rendering of `asdict(c)` with `sort_keys=True`: the keys of a
`CountryData` dict in sorted order are
`brackets, centroid, code, name_zh, region, total_accounts`. -/
def serializeCountry (c : CountryData) : String :=
  "\x7b\"brackets\": " ++ serializeBrackets c.brackets ++
  ", \"centroid\": [" ++ toString c.centroid.1 ++ ", " ++ toString c.centroid.2 ++
  "], \"code\": \"" ++ c.code ++
  "\", \"name_zh\": \"" ++ c.name_zh ++
  "\", \"region\": \"" ++ c.region ++
  "\", \"total_accounts\": " ++ toString c.total_accounts ++ "\x7d"

/-- Embedding of `TikTokDataManager._calculate_data_hash` (lines 242-245): the canonical
key-sorted serialization of the country list. The Python code feeds this
string to `hashlib.md5(...).hexdigest()`; the digest is a deterministic
function of the string, so fingerprint-equality facts are exactly
serialization-equality facts, and we take the serialization itself as the
fingerprint value. -/
def calculate_data_hash (countries : List CountryData) : String :=
  "[" ++ String.intercalate ", " (countries.map serializeCountry) ++ "]"

/-- The body of `parse_data_directory` after the existence guard
(lines 162-240). `src` is `str(self.data_path.absolute())`; `gen` and
`scan` are the two `datetime.now().isoformat()` reads. The hash is taken
after the in-place sort, so it covers the sorted list. -/
def parseOk (es : List Entry) (src gen scan : String) : AggregatedData :=
  { generated_at := gen,
    data_source := src,
    brackets := STANDARD_BRACKETS,
    regions := (parseRegions es).regions_data.map Prod.fst,
    countries := sortCountries (parseRegions es).countries_list,
    totals := ⟨(parseRegions es).total_accounts,
               (sortCountries (parseRegions es).countries_list).length,
               (parseRegions es).regions_data.length⟩,
    metadata := ⟨scan, calculate_data_hash (sortCountries (parseRegions es).countries_list)⟩ }

/-- The manager's `data_path` as the aggregator sees it: `none` = never
set, `some none` = set but nonexistent, `some (some es)` = exists. -/
abbrev DataPath := Option (Option (List Entry))

/-- The `ValueError` message raised at line 160. -/
def dataPathError : String := "数据路径未设置或不存在"

/-- Embedding of `TikTokDataManager.parse_data_directory` (lines 157-240): an unset or
nonexistent root raises `ValueError`; otherwise the traversal runs. -/
def parse_data_directory (dataPath : DataPath) (src gen scan : String) :
    Except String AggregatedData :=
  match dataPath with
  | some (some es) => .ok (parseOk es src gen scan)
  | _ => .error dataPathError

/-! ## Cache (`save_cache`, `load_cache`, `get_data`) -/

/-- The on-disk cache file `data_cache.json`: absent, present but
unreadable or unparsable, or a valid entry holding the aggregate and the
`cached_at` timestamp. -/
inductive CacheFile where
  | absent
  | corrupt
  | valid (data : AggregatedData) (cachedAt : String)
deriving DecidableEq

/-- Embedding of `TikTokDataManager.load_cache` (lines 260-275): a missing file yields
`None`; a parse/reconstruction failure is caught and yields `None`;
otherwise the stored aggregate is rebuilt. -/
def load_cache : CacheFile → Option AggregatedData
  | .absent => none
  | .corrupt => none
  | .valid d _ => some d

/-- Embedding of `TikTokDataManager.save_cache` (lines 247-258): write the aggregate and
a `cached_at` stamp; a write failure is caught and logged, leaving the file
as it was. `writable` models whether the write succeeds. -/
def save_cache (cache : CacheFile) (d : AggregatedData) (now : String) (writable : Bool) :
    CacheFile :=
  if writable then .valid d now else cache

/-- The refresh tail of `get_data` (lines 285-288): re-parse, save the
cache, return the fresh aggregate. Returns the data together with the
resulting cache-file state. -/
def refreshAndCache (cache : CacheFile) (dataPath : DataPath) (src gen scan now : String)
    (cacheWritable : Bool) : Except String (AggregatedData × CacheFile) :=
  match parse_data_directory dataPath src gen scan with
  | .error e => .error e
  | .ok d => .ok (d, save_cache cache d now cacheWritable)

/-- Embedding of `TikTokDataManager.get_data` (lines 277-288). -/
def get_data (cache : CacheFile) (dataPath : DataPath) (src gen scan now : String)
    (cacheWritable use_cache force_refresh : Bool) :
    Except String (AggregatedData × CacheFile) :=
  if use_cache && !force_refresh then
    match load_cache cache with
    | some d => .ok (d, cache)
    | none => refreshAndCache cache dataPath src gen scan now cacheWritable
  else refreshAndCache cache dataPath src gen scan now cacheWritable

/-! ## Exporter (`export_to_json`, `TikTokDataServer.refresh_data_file`) -/

/-- The `totals` object of an exported country. -/
structure ExportTotals where
  accounts : Nat
deriving DecidableEq

/-- One element of the exported `countries` array (lines 298-308). -/
structure ExportCountry where
  code : String
  nameZh : String
  region : String
  centroid : List Int
  byBracket : List (String × Nat)
  totals : ExportTotals
deriving DecidableEq

/-- The external JSON artifact shape (`output_data`, lines 294-310). -/
structure ExportData where
  generatedAt : String
  brackets : List String
  totals : Totals
  countries : List ExportCountry
  regions : List String
deriving DecidableEq

/-- The serialization of an aggregate into the export schema. -/
def exportJson (d : AggregatedData) : ExportData :=
  { generatedAt := d.generated_at,
    brackets := d.brackets,
    totals := d.totals,
    countries := d.countries.map (fun c =>
      { code := c.code, nameZh := c.name_zh, region := c.region,
        centroid := [c.centroid.1, c.centroid.2], byBracket := c.brackets,
        totals := ⟨c.total_accounts⟩ }),
    regions := d.regions }

/-- Embedding of `TikTokDataManager.export_to_json` (lines 290-319): obtain the data via
`get_data()` (default arguments: `use_cache=True, force_refresh=False`),
build `output_data`, write it. Any exception — aggregation failure or
write failure — is caught and reported as `False`. Returns the boolean
result, the cache-file state, and the output-file state (`outFile` is its
previous content, `outWritable` whether the write succeeds). -/
def export_to_json (cache : CacheFile) (dataPath : DataPath) (src gen scan now : String)
    (cacheWritable : Bool) (outWritable : Bool) (outFile : Option ExportData) :
    Bool × CacheFile × Option ExportData :=
  match get_data cache dataPath src gen scan now cacheWritable true false with
  | .error _ => (false, cache, outFile)
  | .ok (d, cache2) =>
    if outWritable then (true, cache2, some (exportJson d))
    else (false, cache2, outFile)

/-- Embedding of `TikTokDataServer.refresh_data_file` (lines 374-394): first
`os.makedirs(os.path.dirname(self.output_file), exist_ok=True)` (its
success modelled by `mkdirOk`; a failure raises, is caught, and yields
`False`), then delegate to `export_to_json`. -/
def refresh_data_file (cache : CacheFile) (dataPath : DataPath) (src gen scan now : String)
    (cacheWritable : Bool) (mkdirOk outWritable : Bool) (outFile : Option ExportData) :
    Bool × CacheFile × Option ExportData :=
  if mkdirOk then
    export_to_json cache dataPath src gen scan now cacheWritable outWritable outFile
  else (false, cache, outFile)

/-! ## File watcher (`file_watcher.py`) -/

/-- A snapshot: the `file path -> mtime` dict built by `scan_files`,
as an association list (a dict has pairwise-distinct keys; see
`keysNodup`). -/
abbrev Snapshot := List (String × Nat)

/-- Dict lookup on a snapshot (first matching key wins). -/
def snapLookup (s : Snapshot) (p : String) : Option Nat :=
  match s with
  | [] => none
  | (q, m) :: rest => if q = p then some m else snapLookup rest p

/-- Embedding of `FileWatcher.check_changes` (file_watcher.py lines 54-72), with the
fresh `scan_files()` result passed in as `current`: first scan `current`
for a path absent from `previous` or carrying a different mtime; then scan
`previous` for a deleted path; on either hit replace the held snapshot by
`current` and report `true`, otherwise keep `previous` and report `false`.
Returns (result, new held snapshot). -/
def check_changes (previous current : Snapshot) : Bool × Snapshot :=
  if current.any (fun pm => decide (¬ snapLookup previous pm.1 = some pm.2)) then
    (true, current)
  else if previous.any (fun pm => (snapLookup current pm.1).isNone) then
    (true, current)
  else (false, previous)

/-- The change predicate of the claim: some path of the fresh snapshot is
new or re-stamped, or some held path disappeared. -/
def snapshotDiff (previous current : Snapshot) : Prop :=
  (∃ pm, pm ∈ current ∧ ¬ snapLookup previous pm.1 = some pm.2) ∨
  (∃ pm, pm ∈ previous ∧ snapLookup current pm.1 = none)

/-- A snapshot is a dict: its keys are pairwise distinct. -/
def keysNodup (s : Snapshot) : Prop :=
  (s.map Prod.fst).Nodup

/-- The fresh scan taken after file `f` was deleted and nothing else
changed: every other path keeps its mtime. -/
def deleteFile (s : Snapshot) (f : String) : Snapshot :=
  s.filter (fun pm => decide (¬ pm.1 = f))

/-- A directory entry as the watcher's scanner sees it: a file with its
stat result (`none` = the `os.path.getmtime` call raises `OSError` and the
file is skipped), or a subdirectory. -/
inductive WEntry where
  | wfile (name : String) (mtime : Option Nat)
  | wdir (name : String) (entries : List WEntry)

/-- The `os.walk` collection loop of `scan_files` (lines 40-48): keep
`.txt` files whose stat succeeds, keyed by their joined path. -/
def walkFiles (pathSoFar : String) : List WEntry → Snapshot
  | [] => []
  | .wfile n mt :: rest =>
    (if n.endsWith ".txt" then
      match mt with
      | some m => [(pathSoFar ++ "/" ++ n, m)]
      | none => []
    else []) ++ walkFiles pathSoFar rest
  | .wdir n es :: rest => walkFiles pathSoFar rest ++ walkFiles (pathSoFar ++ "/" ++ n) es

/-- Embedding of `FileWatcher.scan_files` (lines 32-52): a missing watch root yields an
empty snapshot, not an error. -/
def scan_files (watchDir : Option (List WEntry)) (rootPath : String) : Snapshot :=
  match watchDir with
  | none => []
  | some es => walkFiles rootPath es

/-! ## The watcher refresh callback (`TikTokFileWatcher.on_file_change`) -/

/-- The method names bound on class `TikTokDataManager`
(tiktok_data_manager.py lines 77-319). -/
def tikTokDataManagerMethods : List String :=
  ["__init__", "set_data_path", "load_config", "scan_data_directory",
   "read_account_file", "parse_data_directory", "_calculate_data_hash",
   "save_cache", "load_cache", "get_data", "export_to_json"]

/-- The method `TikTokFileWatcher.on_file_change` (file_watcher.py line
170) invokes on its data manager. -/
def onFileChangeInvokedMethod : String := "generate_json"

/-! ## Concrete evaluation fixtures -/

/-- Contents of a small country directory: one bracket file with two valid
lines, one comment line and one blank line. -/
def deInner : List Entry := [Entry.file "0-500.txt" (some ["a", "#x", " ", "b"])]

/-- A region directory holding a qualifying country and an empty one. -/
def euInner : List Entry :=
  [Entry.dir "DE" deInner, Entry.dir "XX" [Entry.file "0-500.txt" (some [""])]]

/-- A small data root: one region plus a stray non-directory entry. -/
def es0 : List Entry := [Entry.dir "EU" euInner, Entry.file "readme.md" none]

/-- The country record the aggregator materializes for `DE` in `es0`. -/
def c0 : CountryData := mkCountryData "DE" "EU" [("0-500", 2)] 2

/-- The region record materialized for `EU` in `es0`. -/
def r0pair : String × RegionData := ("EU", ⟨"EU", [("DE", [("0-500", 2)])], 2, 1⟩)

/-- The aggregate computed over `es0`. -/
def d0 : AggregatedData := parseOk es0 "src" "gen" "scan"

/-- A cache file holding `d0`. -/
def cache0 : CacheFile := CacheFile.valid d0 "t0"

/-- A baseline watcher snapshot. -/
def prev0 : Snapshot := [("r/a.txt", 1), ("r/b.txt", 2)]

/-- A fresh snapshot in which `r/b.txt` was re-stamped. -/
def cur0 : Snapshot := [("r/a.txt", 1), ("r/b.txt", 3)]

/-! ## Helper lemmas: bracket loop -/

/-- The running `country_total` equals the sum of the recorded bracket
counts. -/
theorem parseBrackets_total (es : List Entry) :
    ∀ bs : List String, (parseBrackets es bs).2 = bracketSum (parseBrackets es bs).1 := by
  intro bs
  induction bs with
  | nil => simp [parseBrackets, bracketSum]
  | cons b bs ih =>
    cases h : findEntry es (b ++ ".txt") with
    | none => simpa [parseBrackets, h] using ih
    | some e =>
      by_cases hc : 0 < readEntry e
      · simp [parseBrackets, h, hc, bracketSum] at ih ⊢
        omega
      · simpa [parseBrackets, h, hc] using ih

/-- Only strictly positive counts are recorded in the bracket mapping. -/
theorem parseBrackets_pos (es : List Entry) :
    ∀ bs : List String, ∀ p ∈ (parseBrackets es bs).1, 0 < p.2 := by
  intro bs
  induction bs with
  | nil => simp [parseBrackets]
  | cons b bs ih =>
    cases h : findEntry es (b ++ ".txt") with
    | none => simpa [parseBrackets, h] using ih
    | some e =>
      by_cases hc : 0 < readEntry e
      · intro p hp
        simp [parseBrackets, h, hc] at hp
        rcases hp with rfl | hp
        · exact hc
        · exact ih p hp
      · simpa [parseBrackets, h, hc] using ih

/-! ## Helper lemmas: country loop -/

/-- Every country record produced by one region walk satisfies the
per-country invariants. -/
theorem parseCountryDirs_countries (r : String) :
    ∀ es : List Entry, ∀ c ∈ (parseCountryDirs r es).countries_list,
      c.total_accounts = bracketSum c.brackets ∧ (∀ p ∈ c.brackets, 0 < p.2) ∧
      0 < c.total_accounts ∧ c.region = r := by
  intro es
  induction es with
  | nil => simp [parseCountryDirs]
  | cons e rest ih =>
    cases e with
    | file n content => simpa [parseCountryDirs] using ih
    | dir code ces =>
      by_cases h : 0 < (parseBrackets ces STANDARD_BRACKETS).2
      · intro c hc
        simp only [parseCountryDirs, if_pos h, List.mem_cons] at hc
        rcases hc with rfl | hc
        · exact ⟨parseBrackets_total ces STANDARD_BRACKETS,
                 parseBrackets_pos ces STANDARD_BRACKETS, h, rfl⟩
        · exact ih c hc
      · intro c hc
        simp only [parseCountryDirs, if_neg h] at hc
        exact ih c hc

/-- The running `region_total` equals the sum over the `region_countries`
dict of each country's bracket-count sum. -/
theorem parseCountryDirs_total (r : String) :
    ∀ es : List Entry, (parseCountryDirs r es).region_total =
      ((parseCountryDirs r es).region_countries.map (fun cb => bracketSum cb.2)).sum := by
  intro es
  induction es with
  | nil => simp [parseCountryDirs]
  | cons e rest ih =>
    cases e with
    | file n content => simpa [parseCountryDirs] using ih
    | dir code ces =>
      by_cases h : 0 < (parseBrackets ces STANDARD_BRACKETS).2
      · simp only [parseCountryDirs, if_pos h, List.map_cons, List.sum_cons]
        rw [ih, parseBrackets_total]
      · simpa [parseCountryDirs, if_neg h] using ih

/-- A country directory whose bracket files sum to a positive count is
materialized, with its code and owning region. -/
theorem parseCountryDirs_included (r : String) :
    ∀ es : List Entry, ∀ code ces, Entry.dir code ces ∈ es →
      0 < (parseBrackets ces STANDARD_BRACKETS).2 →
      ∃ c ∈ (parseCountryDirs r es).countries_list, c.code = code ∧ c.region = r := by
  intro es
  induction es with
  | nil => simp
  | cons e rest ih =>
    intro code ces hmem hpos
    rcases List.mem_cons.mp hmem with heq | hmem2
    · subst heq
      refine ⟨mkCountryData code r (parseBrackets ces STANDARD_BRACKETS).1
        (parseBrackets ces STANDARD_BRACKETS).2, ?_, rfl, rfl⟩
      simp [parseCountryDirs, if_pos hpos]
    · rcases ih code ces hmem2 hpos with ⟨c, hc, hcode, hreg⟩
      refine ⟨c, ?_, hcode, hreg⟩
      cases e with
      | file n content => simpa [parseCountryDirs] using hc
      | dir code2 ces2 =>
        by_cases h : 0 < (parseBrackets ces2 STANDARD_BRACKETS).2
        · simp [parseCountryDirs, if_pos h, hc]
        · simpa [parseCountryDirs, if_neg h] using hc

/-- A qualifying country makes the `region_countries` dict non-empty. -/
theorem parseCountryDirs_rc_nonempty (r : String) :
    ∀ es : List Entry, ∀ code ces, Entry.dir code ces ∈ es →
      0 < (parseBrackets ces STANDARD_BRACKETS).2 →
      (parseCountryDirs r es).region_countries ≠ [] := by
  intro es
  induction es with
  | nil => simp
  | cons e rest ih =>
    intro code ces hmem hpos
    rcases List.mem_cons.mp hmem with heq | hmem2
    · subst heq
      simp [parseCountryDirs, if_pos hpos]
    · cases e with
      | file n content =>
        simpa [parseCountryDirs] using ih code ces hmem2 hpos
      | dir code2 ces2 =>
        by_cases h : 0 < (parseBrackets ces2 STANDARD_BRACKETS).2
        · simp [parseCountryDirs, if_pos h]
        · simpa [parseCountryDirs, if_neg h] using ih code ces hmem2 hpos

/-! ## Helper lemmas: region loop -/

/-- Every country record in the full traversal satisfies the per-country
invariants. -/
theorem parseRegions_countries :
    ∀ es : List Entry, ∀ c ∈ (parseRegions es).countries_list,
      c.total_accounts = bracketSum c.brackets ∧ (∀ p ∈ c.brackets, 0 < p.2) ∧
      0 < c.total_accounts := by
  intro es
  induction es with
  | nil => simp [parseRegions]
  | cons e rest ih =>
    cases e with
    | file n content => simpa [parseRegions] using ih
    | dir rname res =>
      intro c hc
      simp only [parseRegions, List.mem_append] at hc
      rcases hc with hc | hc
      · rcases parseCountryDirs_countries rname res c hc with ⟨h1, h2, h3, _⟩
        exact ⟨h1, h2, h3⟩
      · exact ih c hc

/-- Every materialized region record carries the sum of its countries'
bracket-count sums, and a non-empty country dict. -/
theorem parseRegions_regions :
    ∀ es : List Entry, ∀ nr ∈ (parseRegions es).regions_data,
      nr.2.total_accounts = (nr.2.countries.map (fun cb => bracketSum cb.2)).sum ∧
      nr.2.countries ≠ [] := by
  intro es
  induction es with
  | nil => simp [parseRegions]
  | cons e rest ih =>
    cases e with
    | file n content => simpa [parseRegions] using ih
    | dir rname res =>
      intro nr hnr
      by_cases h : (parseCountryDirs rname res).region_countries = []
      · simp only [parseRegions, if_pos h] at hnr
        exact ih nr hnr
      · simp only [parseRegions, if_neg h, List.mem_cons] at hnr
        rcases hnr with rfl | hnr
        · exact ⟨parseCountryDirs_total rname res, h⟩
        · exact ih nr hnr

/-- A country directory with a positive bracket sum yields a country
record (with that code and region) in the traversal's country list. -/
theorem parseRegions_country_included :
    ∀ es : List Entry, ∀ rname res, Entry.dir rname res ∈ es →
      ∀ code ces, Entry.dir code ces ∈ res →
        0 < (parseBrackets ces STANDARD_BRACKETS).2 →
        ∃ c ∈ (parseRegions es).countries_list, c.code = code ∧ c.region = rname := by
  intro es
  induction es with
  | nil => simp
  | cons e rest ih =>
    intro rname res hmem code ces hmem2 hpos
    rcases List.mem_cons.mp hmem with heq | hmem3
    · subst heq
      rcases parseCountryDirs_included rname res code ces hmem2 hpos with ⟨c, hc, hcode, hreg⟩
      refine ⟨c, ?_, hcode, hreg⟩
      simp only [parseRegions, List.mem_append]
      exact Or.inl hc
    · rcases ih rname res hmem3 code ces hmem2 hpos with ⟨c, hc, hcode, hreg⟩
      refine ⟨c, ?_, hcode, hreg⟩
      cases e with
      | file n content => simpa [parseRegions] using hc
      | dir rname2 res2 =>
        simp only [parseRegions, List.mem_append]
        exact Or.inr hc

/-- A region directory that retains at least one qualifying country
appears among the materialized region names. -/
theorem parseRegions_region_included :
    ∀ es : List Entry, ∀ rname res, Entry.dir rname res ∈ es →
      (parseCountryDirs rname res).region_countries ≠ [] →
      rname ∈ (parseRegions es).regions_data.map Prod.fst := by
  intro es
  induction es with
  | nil => simp
  | cons e rest ih =>
    intro rname res hmem hne
    rcases List.mem_cons.mp hmem with heq | hmem2
    · subst heq
      simp [parseRegions, if_neg hne]
    · cases e with
      | file n content => simpa [parseRegions] using ih rname res hmem2 hne
      | dir rname2 res2 =>
        by_cases h : (parseCountryDirs rname2 res2).region_countries = []
        · simpa [parseRegions, if_pos h] using ih rname res hmem2 hne
        · simp only [parseRegions, if_neg h, List.map_cons, List.mem_cons]
          exact Or.inr (ih rname res hmem2 hne)

/-! ## Helper lemmas: stable descending sort -/

/-- Sortedness predicate of the claims: pairwise non-increasing
`total_accounts`. -/
def SortedDesc (l : List CountryData) : Prop :=
  l.Pairwise (fun a b => b.total_accounts ≤ a.total_accounts)

/-- Membership through `insertDesc`. -/
theorem mem_insertDesc (c x : CountryData) :
    ∀ l : List CountryData, x ∈ insertDesc c l ↔ x = c ∨ x ∈ l := by
  intro l
  induction l with
  | nil => simp [insertDesc]
  | cons d ds ih =>
    by_cases h : d.total_accounts ≤ c.total_accounts
    · simp [insertDesc, if_pos h]
    · simp [insertDesc, if_neg h, ih]
      tauto

/-- Membership through `sortCountries`. -/
theorem mem_sortCountries (x : CountryData) :
    ∀ l : List CountryData, x ∈ sortCountries l ↔ x ∈ l := by
  intro l
  induction l with
  | nil => simp [sortCountries]
  | cons c cs ih => simp [sortCountries, mem_insertDesc, ih]

/-- Lemma: `insertDesc` preserves descending sortedness. -/
theorem sortedDesc_insertDesc (c : CountryData) :
    ∀ l : List CountryData, SortedDesc l → SortedDesc (insertDesc c l) := by
  intro l
  induction l with
  | nil => intro _; simp [insertDesc, SortedDesc]
  | cons d ds ih =>
    intro h
    rw [SortedDesc, List.pairwise_cons] at h
    by_cases hc : d.total_accounts ≤ c.total_accounts
    · rw [insertDesc, if_pos hc, SortedDesc, List.pairwise_cons]
      constructor
      · intro x hx
        rcases List.mem_cons.mp hx with rfl | hx
        · exact hc
        · exact le_trans (h.1 x hx) hc
      · rw [List.pairwise_cons]
        exact h
    · rw [insertDesc, if_neg hc, SortedDesc, List.pairwise_cons]
      constructor
      · intro x hx
        rcases (mem_insertDesc c x ds).mp hx with rfl | hx
        · exact le_of_lt (lt_of_not_le hc)
        · exact h.1 x hx
      · exact ih h.2

/-- The sorted country list is pairwise non-increasing. -/
theorem sortedDesc_sortCountries :
    ∀ l : List CountryData, SortedDesc (sortCountries l) := by
  intro l
  induction l with
  | nil => simp [sortCountries, SortedDesc]
  | cons c cs ih => exact sortedDesc_insertDesc c (sortCountries cs) ih

/-- How `insertDesc` interacts with filtering one `total_accounts` value:
the inserted element lands exactly in front of the equal-valued block. -/
theorem filter_insertDesc (v : Nat) (c : CountryData) :
    ∀ l : List CountryData,
      (insertDesc c l).filter (fun d => d.total_accounts == v) =
        if c.total_accounts == v then
          c :: l.filter (fun d => d.total_accounts == v)
        else l.filter (fun d => d.total_accounts == v) := by
  intro l
  induction l with
  | nil =>
    by_cases hv : c.total_accounts = v <;> simp [insertDesc, hv]
  | cons d ds ih =>
    by_cases hc : d.total_accounts ≤ c.total_accounts
    · rw [insertDesc, if_pos hc]
      by_cases hv : c.total_accounts = v <;> simp [List.filter_cons, hv]
    · rw [insertDesc, if_neg hc]
      by_cases hv : c.total_accounts = v
      · have hd : ¬ d.total_accounts = v := by
          intro hd
          exact hc (le_of_eq (hd.trans hv.symm))
        simp [List.filter_cons, hv, hd, ih]
      · by_cases hd : d.total_accounts = v <;>
          simp [List.filter_cons, hv, hd, ih]

/-- Stability: sorting does not disturb the relative order of countries
sharing one `total_accounts` value. -/
theorem filter_sortCountries (v : Nat) :
    ∀ l : List CountryData,
      (sortCountries l).filter (fun d => d.total_accounts == v) =
        l.filter (fun d => d.total_accounts == v) := by
  intro l
  induction l with
  | nil => simp [sortCountries]
  | cons c cs ih =>
    rw [sortCountries, filter_insertDesc, ih]
    by_cases hv : c.total_accounts = v <;> simp [List.filter_cons, hv]

/-! ## Helper lemmas: snapshots -/

/-- In a snapshot with distinct keys, lookup recovers each stored pair. -/
theorem snapLookup_of_mem :
    ∀ s : Snapshot, keysNodup s → ∀ pm ∈ s, snapLookup s pm.1 = some pm.2 := by
  intro s
  induction s with
  | nil => simp
  | cons q rest ih =>
    intro hnd pm hm
    rw [keysNodup, List.map_cons, List.nodup_cons] at hnd
    rcases List.mem_cons.mp hm with rfl | hm2
    · simp [snapLookup]
    · have hne : ¬ q.1 = pm.1 := by
        intro he
        exact hnd.1 (he ▸ List.mem_map_of_mem Prod.fst hm2)
      rw [snapLookup, if_neg hne]
      exact ih hnd.2 pm hm2

/-- A scan compared against itself reports no change and keeps the held
snapshot. -/
theorem check_changes_self (s : Snapshot) (h : keysNodup s) :
    check_changes s s = (false, s) := by
  have h1 : s.any (fun pm => decide (¬ snapLookup s pm.1 = some pm.2)) = false := by
    rw [List.any_eq_false]
    intro pm hpm
    simp [snapLookup_of_mem s h pm hpm]
  have h2 : s.any (fun pm => (snapLookup s pm.1).isNone) = false := by
    rw [List.any_eq_false]
    intro pm hpm
    simp [snapLookup_of_mem s h pm hpm]
  rw [check_changes, h1, h2]
  simp

/-- Positive detection is exactly the presence of an added, re-stamped or
deleted path. -/
theorem check_changes_iff (prev cur : Snapshot) :
    (check_changes prev cur).1 = true ↔ snapshotDiff prev cur := by
  rw [check_changes, snapshotDiff]
  by_cases h1 : cur.any (fun pm => decide (¬ snapLookup prev pm.1 = some pm.2)) = true
  · rw [if_pos h1]
    simp only [true_iff]
    rcases List.any_eq_true.mp h1 with ⟨pm, hpm, hdec⟩
    exact Or.inl ⟨pm, hpm, of_decide_eq_true hdec⟩
  · rw [if_neg h1]
    by_cases h2 : prev.any (fun pm => (snapLookup cur pm.1).isNone) = true
    · rw [if_pos h2]
      simp only [true_iff]
      rcases List.any_eq_true.mp h2 with ⟨pm, hpm, hnone⟩
      exact Or.inr ⟨pm, hpm, Option.isNone_iff_eq_none.mp hnone⟩
    · rw [if_neg h2]
      constructor
      · intro hfalse
        exact absurd hfalse (by simp)
      · intro hdiff
        exfalso
        rcases hdiff with ⟨pm, hpm, hne⟩ | ⟨pm, hpm, hnone⟩
        · exact h1 (List.any_eq_true.mpr ⟨pm, hpm, decide_eq_true hne⟩)
        · exact h2 (List.any_eq_true.mpr ⟨pm, hpm, Option.isNone_iff_eq_none.mpr hnone⟩)

/-- The held snapshot is replaced exactly on positive detection. -/
theorem check_changes_state (prev cur : Snapshot) :
    (check_changes prev cur).2 = if (check_changes prev cur).1 = true then cur else prev := by
  rw [check_changes]
  by_cases h1 : cur.any (fun pm => decide (¬ snapLookup prev pm.1 = some pm.2)) = true
  · rw [if_pos h1]; simp
  · rw [if_neg h1]
    by_cases h2 : prev.any (fun pm => (snapLookup cur pm.1).isNone) = true
    · rw [if_pos h2]; simp
    · rw [if_neg h2]; simp

/-- Deleting entries keeps the key list a sublist, hence still duplicate-free. -/
theorem keysNodup_deleteFile (s : Snapshot) (f : String) (h : keysNodup s) :
    keysNodup (deleteFile s f) := by
  exact List.Nodup.sublist (List.Sublist.map Prod.fst (List.filter_sublist s)) h

/-- Membership in the post-deletion scan. -/
theorem mem_deleteFile (s : Snapshot) (f : String) (pm : String × Nat) :
    pm ∈ deleteFile s f ↔ pm ∈ s ∧ ¬ pm.1 = f := by
  simp [deleteFile, List.mem_filter]

/-- The deleted path no longer resolves. -/
theorem snapLookup_deleteFile_self (f : String) :
    ∀ s : Snapshot, snapLookup (deleteFile s f) f = none := by
  intro s
  induction s with
  | nil => simp [deleteFile, snapLookup]
  | cons q rest ih =>
    by_cases hq : q.1 = f
    · rw [deleteFile, List.filter_cons, if_neg (by simp [hq])]
      exact ih
    · rw [deleteFile, List.filter_cons, if_pos (by simp [hq])]
      rw [snapLookup, if_neg hq]
      exact ih

/-- Scanning after one deletion (all other stats unchanged) triggers a
detection and commits the reduced snapshot. -/
theorem check_changes_delete (prev : Snapshot) (h : keysNodup prev) (f : String)
    (hf : f ∈ prev.map Prod.fst) :
    check_changes prev (deleteFile prev f) = (true, deleteFile prev f) := by
  have h1 : (deleteFile prev f).any
      (fun pm => decide (¬ snapLookup prev pm.1 = some pm.2)) = false := by
    rw [List.any_eq_false]
    intro pm hpm
    have := snapLookup_of_mem prev h pm ((mem_deleteFile prev f pm).mp hpm).1
    simp [this]
  have h2 : prev.any (fun pm => (snapLookup (deleteFile prev f) pm.1).isNone) = true := by
    rcases List.mem_map.mp hf with ⟨pm, hpm, hfst⟩
    refine List.any_eq_true.mpr ⟨pm, hpm, ?_⟩
    rw [hfst, snapLookup_deleteFile_self f prev]
    rfl
  rw [check_changes, h1, h2]
  simp

/-! ## Claim theorems -/

/-- C1: in every aggregation produced from an existing root, each country
record's `total_accounts` is the sum of its bracket counts, its bracket
mapping holds only positive counts, a country record appears iff its
summed bracket counts exceed zero (only-if: every record has a positive
total; if: every country directory with a positive bracket sum yields a
record with its code and region), each region record's `total_accounts` is
the sum of its countries' totals, and a region is materialized iff it
retains at least one qualifying country (every materialized region has a
non-empty country dict; every region directory with a non-empty qualifying
country dict is materialized). -/
theorem aggregation_invariants (es : List Entry) (src gen scan : String) :
    (∀ c ∈ (parseOk es src gen scan).countries,
        c.total_accounts = bracketSum c.brackets ∧ (∀ p ∈ c.brackets, 0 < p.2) ∧
        0 < c.total_accounts) ∧
    (∀ rname res, Entry.dir rname res ∈ es → ∀ code ces, Entry.dir code ces ∈ res →
        0 < (parseBrackets ces STANDARD_BRACKETS).2 →
        ∃ c ∈ (parseOk es src gen scan).countries, c.code = code ∧ c.region = rname) ∧
    (∀ nr ∈ (parseRegions es).regions_data,
        nr.2.total_accounts = (nr.2.countries.map (fun cb => bracketSum cb.2)).sum ∧
        nr.2.countries ≠ []) ∧
    (∀ rname res, Entry.dir rname res ∈ es →
        (parseCountryDirs rname res).region_countries ≠ [] →
        rname ∈ (parseRegions es).regions_data.map Prod.fst) := by
  refine ⟨?_, ?_, parseRegions_regions es, parseRegions_region_included es⟩
  · intro c hc
    exact parseRegions_countries es c ((mem_sortCountries c _).mp hc)
  · intro rname res hmem code ces hmem2 hpos
    rcases parseRegions_country_included es rname res hmem code ces hmem2 hpos with
      ⟨c, hc, h1, h2⟩
    exact ⟨c, (mem_sortCountries c _).mpr hc, h1, h2⟩

/-- C1 witness: the invariants evaluated on the concrete root `es0`. -/
theorem aggregation_invariants_witness :
    (c0.total_accounts = bracketSum c0.brackets ∧ (∀ p ∈ c0.brackets, 0 < p.2) ∧
      0 < c0.total_accounts) ∧
    (∃ c ∈ (parseOk es0 "src" "gen" "scan").countries, c.code = "DE" ∧ c.region = "EU") ∧
    (r0pair.2.total_accounts = (r0pair.2.countries.map (fun cb => bracketSum cb.2)).sum ∧
      r0pair.2.countries ≠ []) ∧
    "EU" ∈ (parseRegions es0).regions_data.map Prod.fst :=
  ⟨(aggregation_invariants es0 "src" "gen" "scan").1 c0 (by decide),
   (aggregation_invariants es0 "src" "gen" "scan").2.1 "EU" euInner
     (List.mem_cons_self _ _) "DE" deInner (List.mem_cons_self _ _) (by decide),
   (aggregation_invariants es0 "src" "gen" "scan").2.2.1 r0pair (by decide),
   (aggregation_invariants es0 "src" "gen" "scan").2.2.2 "EU" euInner
     (List.mem_cons_self _ _) (by decide)⟩

/-- C2: detection is positive exactly when the fresh snapshot differs from
the held one (a path added or re-stamped, or a path removed); the held
snapshot is replaced by the fresh one exactly when the call reports true;
hence a repeat call against an unchanged filesystem reports false, and
deleting one previously-present file makes exactly one subsequent call
report true. -/
theorem change_detector_spec (prev cur : Snapshot) :
    ((check_changes prev cur).1 = true ↔ snapshotDiff prev cur) ∧
    ((check_changes prev cur).2 =
      if (check_changes prev cur).1 = true then cur else prev) ∧
    (keysNodup cur → (check_changes (check_changes prev cur).2 cur).1 = false) ∧
    (keysNodup prev → ∀ f ∈ prev.map Prod.fst,
      check_changes prev (deleteFile prev f) = (true, deleteFile prev f) ∧
      (check_changes (deleteFile prev f) (deleteFile prev f)).1 = false) := by
  refine ⟨check_changes_iff prev cur, check_changes_state prev cur, ?_, ?_⟩
  · intro hcur
    cases hb : (check_changes prev cur).1 with
    | true =>
      have hstate : (check_changes prev cur).2 = cur := by
        rw [check_changes_state, hb]
        simp
      rw [hstate, check_changes_self cur hcur]
    | false =>
      have hstate : (check_changes prev cur).2 = prev := by
        rw [check_changes_state, hb]
        simp
      rw [hstate]
      exact hb
  · intro hprev f hf
    refine ⟨check_changes_delete prev hprev f hf, ?_⟩
    rw [check_changes_self (deleteFile prev f) (keysNodup_deleteFile prev f hprev)]

/-- C2 witness: the detector evaluated on the concrete snapshots `prev0`,
`cur0`, and on the deletion of `r/a.txt`. -/
theorem change_detector_spec_witness :
    ((check_changes prev0 cur0).1 = true ↔ snapshotDiff prev0 cur0) ∧
    (check_changes (check_changes prev0 cur0).2 cur0).1 = false ∧
    check_changes prev0 (deleteFile prev0 "r/a.txt") =
      (true, deleteFile prev0 "r/a.txt") ∧
    (check_changes (deleteFile prev0 "r/a.txt") (deleteFile prev0 "r/a.txt")).1 = false :=
  ⟨(change_detector_spec prev0 cur0).1,
   (change_detector_spec prev0 cur0).2.2.1 (by unfold keysNodup; decide),
   ((change_detector_spec prev0 cur0).2.2.2 (by unfold keysNodup; decide)
      "r/a.txt" (by decide)).1,
   ((change_detector_spec prev0 cur0).2.2.2 (by unfold keysNodup; decide)
      "r/a.txt" (by decide)).2⟩

/-- C3 (code bug evidence): the refresh callback `on_file_change` invokes
`generate_json` on the data manager, but `TikTokDataManager` defines no
such method — the dispatch cannot resolve, so the detection-to-export path
never reaches the aggregator or the exporter. -/
theorem on_file_change_method_missing :
    tikTokDataManagerMethods.contains onFileChangeInvokedMethod = false := by
  decide

/-- C4: the account-file parser counts exactly the lines that are
non-empty after stripping and do not start with a hash, and a failed read
yields 0 instead of an error. -/
theorem account_file_count_spec :
    (∀ lines : List String,
        read_account_file (some lines) =
          lines.countP (fun line =>
            decide (stripLine line ≠ "" ∧ startsWithHash (stripLine line) = false))) ∧
    read_account_file none = 0 := by
  constructor
  · intro lines
    have hfun : ∀ line : String,
        (decide (stripLine line ≠ "" ∧ startsWithHash (stripLine line) = false)) =
          isValidLine line := by
      intro line
      rw [isValidLine]
      cases hsw : startsWithHash (stripLine line) <;>
        by_cases hne : stripLine line = "" <;> simp [hne, hsw]
    have hpred : (fun line => decide (stripLine line ≠ "" ∧
        startsWithHash (stripLine line) = false)) = isValidLine := funext hfun
    rw [read_account_file, List.length_map, hpred, List.countP_eq_length_filter]
  · rfl

/-- C5: the aggregated country list is pairwise non-increasing in
`total_accounts`, and the sort is stable: for every total value, the
records carrying it appear in the same order as in the traversal-order
list `(parseRegions es).countries_list`. -/
theorem countries_sorted_stable (es : List Entry) (src gen scan : String) :
    SortedDesc (parseOk es src gen scan).countries ∧
    ∀ v : Nat,
      (parseOk es src gen scan).countries.filter (fun c => c.total_accounts == v) =
        (parseRegions es).countries_list.filter (fun c => c.total_accounts == v) := by
  exact ⟨sortedDesc_sortCountries (parseRegions es).countries_list,
         fun v => filter_sortCountries v (parseRegions es).countries_list⟩

/-- C6: the content fingerprint of an aggregation depends only on the
sorted country list — two runs over the same directory contents with
different generation and scan timestamps produce the same fingerprint
(file modification times do not even reach the aggregator). -/
theorem fingerprint_timestamp_independent (es : List Entry)
    (src gen1 scan1 gen2 scan2 : String) :
    (parseOk es src gen1 scan1).metadata.data_hash =
      (parseOk es src gen2 scan2).metadata.data_hash ∧
    (parseOk es src gen1 scan1).metadata.data_hash =
      calculate_data_hash (sortCountries (parseRegions es).countries_list) :=
  ⟨rfl, rfl⟩

/-- C7: the aggregator fails explicitly (the `ValueError` of line 160) on
an unset or nonexistent root, while the watcher's scanner returns an empty
snapshot for a missing root. -/
theorem missing_root_behavior (src gen scan rootPath : String) :
    parse_data_directory none src gen scan = Except.error dataPathError ∧
    parse_data_directory (some none) src gen scan = Except.error dataPathError ∧
    scan_files none rootPath = [] :=
  ⟨rfl, rfl, rfl⟩

/-- C8: with `use_cache` true, `force_refresh` false and a loadable cache
entry, `get_data` returns the cached aggregate and leaves the cache alone
— for every data path, even a nonexistent one, so the aggregator is never
invoked; in every other case (including an absent or corrupt cache file,
which loads as `none` instead of failing) a fresh aggregate is parsed,
stored as the new cache entry, and returned. -/
theorem cache_get_policy (cache : CacheFile) (dataPath : DataPath)
    (src gen scan now : String) :
    (∀ d0, load_cache cache = some d0 →
        ∀ dp : DataPath,
          get_data cache dp src gen scan now true true false = .ok (d0, cache)) ∧
    (∀ (u f : Bool) (d : AggregatedData),
        (u = false ∨ f = true ∨ load_cache cache = none) →
        parse_data_directory dataPath src gen scan = .ok d →
        get_data cache dataPath src gen scan now true u f =
          .ok (d, CacheFile.valid d now)) ∧
    load_cache CacheFile.corrupt = none ∧ load_cache CacheFile.absent = none := by
  refine ⟨?_, ?_, rfl, rfl⟩
  · intro d0 hload dp
    simp [get_data, hload]
  · intro u f d hmiss hparse
    rcases hmiss with rfl | rfl | hnone
    · simp [get_data, refreshAndCache, hparse, save_cache]
    · simp [get_data, refreshAndCache, hparse, save_cache]
    · cases u <;> cases f <;>
        simp [get_data, refreshAndCache, hparse, hnone, save_cache]

/-- C8 witness: a cache hit returned without touching a nonexistent root,
and a corrupt cache treated as a miss with the fresh result re-cached. -/
theorem cache_get_policy_witness :
    get_data cache0 none "src" "gen" "scan" "t1" true true false =
      Except.ok (d0, cache0) ∧
    get_data CacheFile.corrupt (some (some es0)) "src" "gen" "scan" "t1" true true false =
      Except.ok (d0, CacheFile.valid d0 "t1") :=
  ⟨(cache_get_policy cache0 none "src" "gen" "scan" "t1").1 d0 rfl none,
   (cache_get_policy CacheFile.corrupt (some (some es0)) "src" "gen" "scan" "t1").2.1
     true false d0 (Or.inr (Or.inr rfl)) rfl⟩

/-- C9: the exporter serializes the obtained aggregate into the external
schema and writes it when the write succeeds; an aggregation failure or a
write failure is reported as `false` (the function is total — nothing
escapes the boundary) with the previous output left in place; and
`refresh_data_file` first ensures the output directories exist, reporting
`false` when that fails. -/
theorem exporter_error_reporting (cache : CacheFile) (dataPath : DataPath)
    (src gen scan now : String) (cw : Bool) (outFile : Option ExportData) :
    (∀ d cache2,
        get_data cache dataPath src gen scan now cw true false = .ok (d, cache2) →
        export_to_json cache dataPath src gen scan now cw true outFile =
          (true, cache2, some (exportJson d)) ∧
        export_to_json cache dataPath src gen scan now cw false outFile =
          (false, cache2, outFile)) ∧
    (∀ e, get_data cache dataPath src gen scan now cw true false = .error e →
        ∀ ow, export_to_json cache dataPath src gen scan now cw ow outFile =
          (false, cache, outFile)) ∧
    (∀ ow, refresh_data_file cache dataPath src gen scan now cw true ow outFile =
        export_to_json cache dataPath src gen scan now cw ow outFile) ∧
    refresh_data_file cache dataPath src gen scan now cw false true outFile =
      (false, cache, outFile) := by
  refine ⟨?_, ?_, fun ow => rfl, rfl⟩
  · intro d cache2 hget
    constructor <;> simp [export_to_json, hget]
  · intro e hget ow
    simp [export_to_json, hget]

/-- C9 witness: a successful export, a failed write reported as false with
the output untouched, and a failed aggregation reported as false. -/
theorem exporter_error_reporting_witness :
    export_to_json cache0 none "src" "gen" "scan" "t1" true true none =
      (true, cache0, some (exportJson d0)) ∧
    export_to_json cache0 none "src" "gen" "scan" "t1" true false none =
      (false, cache0, none) ∧
    export_to_json CacheFile.absent none "src" "gen" "scan" "t1" true true none =
      (false, CacheFile.absent, none) :=
  ⟨((exporter_error_reporting cache0 none "src" "gen" "scan" "t1" true none).1
      d0 cache0 rfl).1,
   ((exporter_error_reporting cache0 none "src" "gen" "scan" "t1" true none).1
      d0 cache0 rfl).2,
   (exporter_error_reporting CacheFile.absent none "src" "gen" "scan" "t1" true none).2.1
     dataPathError rfl true⟩

/-- C10: whenever `get_data` does not return a cached entry, the fresh
aggregate is written to the cache before returning (`save_cache` with a
successful write yields the new valid entry); a failed cache write leaves
the cache file unchanged and still returns the fresh aggregate. -/
theorem always_persist_policy (cache : CacheFile) (dataPath : DataPath)
    (src gen scan now : String) (w u f : Bool) (d : AggregatedData) :
    (u = false ∨ f = true ∨ load_cache cache = none) →
    parse_data_directory dataPath src gen scan = .ok d →
    get_data cache dataPath src gen scan now w u f = .ok (d, save_cache cache d now w) ∧
    save_cache cache d now false = cache ∧
    save_cache cache d now true = CacheFile.valid d now := by
  intro hmiss hparse
  refine ⟨?_, rfl, rfl⟩
  rcases hmiss with rfl | rfl | hnone
  · simp [get_data, refreshAndCache, hparse]
  · simp [get_data, refreshAndCache, hparse]
  · cases u <;> cases f <;>
      simp [get_data, refreshAndCache, hparse, hnone]

/-- C10 witness: a refresh over `es0` with a failing cache write still
returns the fresh aggregate and leaves the corrupt cache file in place. -/
theorem always_persist_policy_witness :
    (get_data CacheFile.corrupt (some (some es0)) "src" "gen" "scan" "t1" false true false =
      Except.ok (d0, save_cache CacheFile.corrupt d0 "t1" false)) ∧
    save_cache CacheFile.corrupt d0 "t1" false = CacheFile.corrupt ∧
    save_cache CacheFile.corrupt d0 "t1" true = CacheFile.valid d0 "t1" :=
  always_persist_policy CacheFile.corrupt (some (some es0)) "src" "gen" "scan" "t1"
    false true false d0 (Or.inr (Or.inr rfl)) rfl
